import Mathlib

/-!
# keyvalue-mongodb: configuration validation and the key-value store adapter

A shallow embedding of `config.go`, `main.go` and `keyvalue.go`.

* Go `string` and `[]byte` values are byte sequences (`GoString`).
* The package-level variables of `main.go` are the record `Globals`, threaded
  explicitly through every function that reads or assigns them.
* The MongoDB server is the record `Backend`: for every database and
  collection name a list of documents in natural (insertion) order, together
  with flags saying which driver calls fail.
* A Go function that may `panic` returns an `Outcome`.
* Log output and tracing spans are not modelled.
-/

namespace KeyvalueMongodb

/-! ## Strings -/

/-- One byte of a Go string. -/
abbrev Byte := Fin 256

/-- Go `string` / `[]byte`: a finite sequence of bytes. -/
abbrev GoString := List Byte

/-- The bytes of an ASCII string literal of the source. -/
def lit (s : String) : GoString :=
  s.toList.map (fun c => Fin.ofNat c.toNat)

/-! ## config.go -/

/-- The struct `MongoConfigArgs`. -/
structure MongoConfigArgs where
  Name : GoString
  URI : GoString
  Database : GoString
  KV : GoString
  deriving DecidableEq, Repr

/-- The package-level variables holding the configuration. `globalConfigName`,
`globalUri`, `globalDb` and `globalKv` are declared in `main.go`;
`globalLinkName` is assigned and read in `config.go`, and its declaration is
in none of the three files. -/
structure Globals where
  globalConfigName : GoString
  globalUri : GoString
  globalDb : GoString
  globalKv : GoString
  globalLinkName : GoString
  deriving DecidableEq, Repr

/-- The initial values of the variables declared in `main.go`; the initial
value of `globalLinkName` is the zero value of a Go string. -/
def Globals.initial : Globals :=
  { globalConfigName := [], globalUri := [], globalDb := [], globalKv := lit "kv",
    globalLinkName := [] }

/-- A Go `map[string]string` literal or value, as an association list read
with `List.lookup` (`v, ok := m[k]`). -/
abbrev ConfigMap := List (GoString × GoString)

def errNoConfigName : GoString := lit "no config name found"

def errUriRequired : GoString :=
  lit "URI configuration is required - include URI in link configuration or secret (preferred)"

def errDatabaseRequired : GoString := lit "database config is required"

/-- The result of `validateMongoConfig`: the Go pair `(MongoConfigArgs, error)`
(`err = none` is Go's `nil`) and the package-level variables after the call. -/
structure ValidateResult where
  args : MongoConfigArgs
  err : Option GoString
  globals : Globals
  deriving DecidableEq, Repr

/-- The zero value `MongoConfigArgs{}`. -/
def MongoConfigArgs.zero : MongoConfigArgs :=
  { Name := [], URI := [], Database := [], KV := [] }

/-- Embeds `validateMongoConfig(config, name)`, run with the package-level variables `g`. -/
def validateMongoConfig (config : ConfigMap) (name : GoString) (g : Globals) : ValidateResult :=
  let configArgs := MongoConfigArgs.zero
  -- Get config name (for logging purposes) from target link config
  if name = [] then
    { args := configArgs, err := some errNoConfigName, globals := g }
  else
    let configArgs := { configArgs with Name := name }
    let g := { g with globalLinkName := name }
    -- Get URI from target link config
    match config.lookup (lit "uri") with
    | none => { args := configArgs, err := some errUriRequired, globals := g }
    | some uri =>
      if uri = [] then
        { args := configArgs, err := some errUriRequired, globals := g }
      else
        let configArgs := { configArgs with URI := uri }
        let g := { g with globalUri := configArgs.URI }
        -- Get database from target link config
        match config.lookup (lit "database") with
        | none => { args := configArgs, err := some errDatabaseRequired, globals := g }
        | some database =>
          if database = [] then
            { args := configArgs, err := some errDatabaseRequired, globals := g }
          else
            let configArgs := { configArgs with Database := database }
            let g := { g with globalDb := configArgs.Database }
            -- Get optional key-value group value from target link config
            match config.lookup (lit "kv") with
            | none =>
              { args := { configArgs with KV := lit "kv" }, err := none, globals := g }
            | some kv =>
              if kv = [] then
                { args := { configArgs with KV := lit "kv" }, err := none, globals := g }
              else
                let configArgs := { configArgs with KV := kv }
                let g := { g with globalKv := configArgs.KV }
                { args := configArgs, err := none, globals := g }

/-- The package-level variables after the link `link1` with the configuration
`{"uri":"mongodb://localhost:27017","database":"kvstore"}` has been put on the
initial state: `globalUri` and `globalDb` are set and `globalKv` is `"kv"`. -/
def Globals.configured : Globals :=
  (validateMongoConfig
    [(lit "uri", lit "mongodb://localhost:27017"), (lit "database", lit "kvstore")]
    (lit "link1") Globals.initial).globals

/-! ## main.go -/

/-- The fields of `provider.InterfaceLinkDefinition` that the source reads. -/
structure InterfaceLinkDefinition where
  SourceID : GoString
  Target : GoString
  Name : GoString
  TargetConfig : ConfigMap
  deriving DecidableEq, Repr

/-- The link maps of `Provider` (a Go map is an association list with unique keys). -/
structure Provider where
  sourceLinks : List (GoString × InterfaceLinkDefinition)
  targetLinks : List (GoString × InterfaceLinkDefinition)
  deriving DecidableEq, Repr

/-- Map assignment `m[k] = v`. -/
def mapSet (m : List (GoString × InterfaceLinkDefinition)) (k : GoString)
    (v : InterfaceLinkDefinition) : List (GoString × InterfaceLinkDefinition) :=
  (k, v) :: m.filter (fun e => e.1 ≠ k)

/-- Embeds `handleNewTargetLink(link)`: the returned error, the provider and the
package-level variables after the call. -/
def handleNewTargetLink (p : Provider) (link : InterfaceLinkDefinition) (g : Globals) :
    Option GoString × Provider × Globals :=
  let p := { p with targetLinks := mapSet p.targetLinks link.SourceID link }
  let r := validateMongoConfig link.TargetConfig link.Name g
  match r.err with
  | some err => (some err, p, r.globals)
  | none => (none, p, r.globals)

/-- What the store operations read of the package-level variables:
`globalConfigName` (logged by Get and Delete), `globalUri`, `globalDb` and
`globalKv`. -/
def Globals.active (g : Globals) : GoString × GoString × GoString × GoString :=
  (g.globalConfigName, g.globalUri, g.globalDb, g.globalKv)

/-! ## unicode/utf8 and unicode/utf16, as used by encoding/json -/

namespace utf8

def RuneError : Nat := 0xFFFD

def MaxRune : Nat := 0x10FFFF

/-- The table `first`: information about the first byte of a UTF-8 sequence
(`as` = 0xF0, `xx` = 0xF1, `s1` = 0x02, `s2` = 0x13, `s3` = 0x03, `s4` = 0x23,
`s5` = 0x34, `s6` = 0x04, `s7` = 0x44). -/
def first (b : Nat) : Nat :=
  if b < 0x80 then 0xF0
  else if b < 0xC2 then 0xF1
  else if b < 0xE0 then 0x02
  else if b = 0xE0 then 0x13
  else if b < 0xED then 0x03
  else if b = 0xED then 0x23
  else if b < 0xF0 then 0x03
  else if b = 0xF0 then 0x34
  else if b < 0xF4 then 0x04
  else if b = 0xF4 then 0x44
  else 0xF1

/-- The table `acceptRanges`: the range `(lo, hi)` of valid second bytes. -/
def acceptRanges (i : Nat) : Nat × Nat :=
  match i with
  | 0 => (0x80, 0xBF)
  | 1 => (0xA0, 0xBF)
  | 2 => (0x80, 0x9F)
  | 3 => (0x90, 0xBF)
  | 4 => (0x80, 0x8F)
  | _ => (0, 0)

/-- Embeds `utf8.DecodeRune(p)`: the rune and its width in bytes. Masks and shifts are
written arithmetically: `b & 0x3F` is `b % 64`, `x << 6` is `x * 64`, and `|`
of values with disjoint bits is `+`. -/
def DecodeRune (p : GoString) : Nat × Nat :=
  match p with
  | [] => (RuneError, 0)
  | p0 :: t =>
    let x := first p0.val
    if x ≥ 0xF0 then
      (if x = 0xF1 then RuneError else p0.val, 1)
    else
      let sz := x % 8
      let accept := acceptRanges (x / 16)
      if p.length < sz then (RuneError, 1)
      else
        match t with
        | [] => (RuneError, 1)
        | b1 :: t1 =>
          if b1.val < accept.1 ∨ accept.2 < b1.val then (RuneError, 1)
          else if sz ≤ 2 then (p0.val % 32 * 64 + b1.val % 64, 2)
          else
            match t1 with
            | [] => (RuneError, 1)
            | b2 :: t2 =>
              if b2.val < 0x80 ∨ 0xBF < b2.val then (RuneError, 1)
              else if sz ≤ 3 then (p0.val % 16 * 4096 + b1.val % 64 * 64 + b2.val % 64, 3)
              else
                match t2 with
                | [] => (RuneError, 1)
                | b3 :: _ =>
                  if b3.val < 0x80 ∨ 0xBF < b3.val then (RuneError, 1)
                  else
                    (p0.val % 8 * 262144 + b1.val % 64 * 4096 + b2.val % 64 * 64 + b3.val % 64, 4)

/-- Go's conversion `byte(n)`. -/
def byte (n : Nat) : Byte := Fin.ofNat n

/-- Embeds `utf8.EncodeRune(p, r)` / `utf8.AppendRune(nil, r)`: the bytes written. -/
def EncodeRune (r : Nat) : GoString :=
  if r ≤ 0x7F then [byte r]
  else if r ≤ 0x7FF then [byte (0xC0 + r / 64), byte (0x80 + r % 64)]
  else if r > MaxRune ∨ (0xD800 ≤ r ∧ r ≤ 0xDFFF) then [0xEF, 0xBF, 0xBD]
  else if r ≤ 0xFFFF then
    [byte (0xE0 + r / 4096), byte (0x80 + r / 64 % 64), byte (0x80 + r % 64)]
  else
    [byte (0xF0 + r / 262144), byte (0x80 + r / 4096 % 64), byte (0x80 + r / 64 % 64),
      byte (0x80 + r % 64)]

/-- The loop of `utf8.Valid(p)` with `fuel` iterations left: every step of the
scan is an ASCII byte or a well-formed multi-byte sequence. -/
def ValidAux : Nat → GoString → Bool
  | 0, p => p.isEmpty
  | fuel + 1, p =>
    match p with
    | [] => true
    | p0 :: t =>
      if p0.val < 0x80 then ValidAux fuel t
      else
        let r := DecodeRune (p0 :: t)
        if r.1 = RuneError ∧ r.2 = 1 then false
        else ValidAux fuel (t.drop (r.2 - 1))

/-- Embeds `utf8.Valid(p)`: whether `p` consists entirely of valid UTF-8-encoded runes. -/
def Valid (p : GoString) : Bool := ValidAux p.length p

/-- A well-formed multi-byte sequence starts at `b :: t`: `DecodeRune` consumes
`b` and a prefix `pre` of `t`, `EncodeRune` of the decoded rune gives these
bytes back, and the decoding does not depend on what follows them. -/
def WellFormedAt (b : Byte) (t : GoString) : Prop :=
  ∃ pre post, t = pre ++ post ∧ (DecodeRune (b :: t)).2 = pre.length + 1 ∧
    EncodeRune (DecodeRune (b :: t)).1 = b :: pre ∧
    (∀ more, DecodeRune (b :: (pre ++ more)) = DecodeRune (b :: t)) ∧ pre.length ≤ 3

end utf8

namespace utf16

/-- Embeds `utf16.IsSurrogate(r)`. -/
def IsSurrogate (r : Nat) : Bool := 0xD800 ≤ r ∧ r < 0xE000

/-- Embeds `utf16.DecodeRune(r1, r2)`. -/
def DecodeRune (r1 r2 : Nat) : Nat :=
  if 0xD800 ≤ r1 ∧ r1 < 0xDC00 ∧ 0xDC00 ≤ r2 ∧ r2 < 0xE000 then
    (r1 - 0xD800) * 1024 + (r2 - 0xDC00) + 0x10000
  else 0xFFFD

end utf16

/-! ## encoding/json, on the documents that Get passes through it -/

namespace json

/-- The digit `hex[n]` of `const hex = "0123456789abcdef"`. -/
def hex (n : Nat) : Byte :=
  if n < 10 then utf8.byte (0x30 + n) else utf8.byte (0x57 + n)

/-- The table `htmlSafeSet` on ASCII bytes: every byte from the space on except
the double quote, the ampersand, the angle brackets and the backslash. -/
def htmlSafeSet (b : Nat) : Bool :=
  0x20 ≤ b ∧ b ≠ 0x22 ∧ b ≠ 0x26 ∧ b ≠ 0x3C ∧ b ≠ 0x3E ∧ b ≠ 0x5C

/-- The escape that `appendString` writes for an ASCII byte outside `htmlSafeSet`. -/
def escapeByte (b : Byte) : GoString :=
  if b.val = 0x5C ∨ b.val = 0x22 then [0x5C, b]
  else if b.val = 0x08 then [0x5C, 0x62]
  else if b.val = 0x0C then [0x5C, 0x66]
  else if b.val = 0x0A then [0x5C, 0x6E]
  else if b.val = 0x0D then [0x5C, 0x72]
  else if b.val = 0x09 then [0x5C, 0x74]
  else [0x5C, 0x75, 0x30, 0x30, hex (b.val / 16), hex (b.val % 16)]

/-- What `appendString` writes for the non-ASCII rune that `DecodeRuneInString`
returned as `d` at the head of `src`: the escape of U+FFFD for an invalid byte, an escape
for U+2028 and U+2029, and otherwise the bytes of the rune unchanged. -/
def appendRune (src : GoString) (d : Nat × Nat) : GoString :=
  if d.1 = utf8.RuneError ∧ d.2 = 1 then [0x5C, 0x75, 0x66, 0x66, 0x66, 0x64]
  else if d.1 = 0x2028 ∨ d.1 = 0x2029 then [0x5C, 0x75, 0x32, 0x30, 0x32, hex (d.1 % 16)]
  else src.take d.2

/-- The loop of `appendString(dst, src, escapeHTML = true)` with `fuel`
iterations left: the bytes written between the two quotes. A non-ASCII byte
is decoded from the next `utf8.UTFMax = 4` bytes and the loop advances by the
width of the rune. -/
def appendStringAux : Nat → GoString → GoString
  | 0, _ => []
  | _ + 1, [] => []
  | fuel + 1, b :: rest =>
    if b.val < 0x80 then
      (if htmlSafeSet b.val then [b] else escapeByte b) ++ appendStringAux fuel rest
    else
      let d := utf8.DecodeRune ((b :: rest).take 4)
      appendRune (b :: rest) d ++ appendStringAux fuel (rest.drop (d.2 - 1))

/-- Embeds `appendString(nil, src, true)`: the JSON string literal for `src`. Every
iteration consumes at least one byte, so `len(src)` iterations suffice. -/
def appendString (src : GoString) : GoString :=
  [0x22] ++ appendStringAux src.length src ++ [0x22]

/-- The value of one hexadecimal digit in `getu4`. -/
def hexVal (c : Nat) : Option Nat :=
  if 0x30 ≤ c ∧ c ≤ 0x39 then some (c - 0x30)
  else if 0x61 ≤ c ∧ c ≤ 0x66 then some (c - 0x61 + 10)
  else if 0x41 ≤ c ∧ c ≤ 0x46 then some (c - 0x41 + 10)
  else none

/-- Embeds `getu4(s)`: the rune of a leading `\uXXXX`, `none` for Go's `-1`. -/
def getu4 (s : GoString) : Option Nat :=
  match s with
  | b0 :: b1 :: c0 :: c1 :: c2 :: c3 :: _ =>
    if b0.val ≠ 0x5C ∨ b1.val ≠ 0x75 then none
    else
      match hexVal c0.val, hexVal c1.val, hexVal c2.val, hexVal c3.val with
      | some h0, some h1, some h2, some h3 => some (((h0 * 16 + h1) * 16 + h2) * 16 + h3)
      | _, _, _, _ => none
  | _ => none

/-- Prepend decoded bytes to the result of decoding the rest. -/
def prepend (bs : GoString) (r : Option (GoString × GoString)) : Option (GoString × GoString) :=
  r.map (fun x => (bs ++ x.1, x.2))

/-- One iteration of the loop of `unquoteBytes` at the byte `c` followed by
`rest`, `c` not being the closing quote: the bytes written and the input left,
`none` for a syntax error. The escape `\'`, which `unquoteBytes` would
accept, is rejected by the scanner before. -/
def unquoteStep (c : Byte) (rest : GoString) : Option (GoString × GoString) :=
  if c.val = 0x5C then
    match rest with
    | [] => none
    | e :: rest1 =>
      if e.val = 0x22 ∨ e.val = 0x5C ∨ e.val = 0x2F then some ([e], rest1)
      else if e.val = 0x62 then some ([0x08], rest1)
      else if e.val = 0x66 then some ([0x0C], rest1)
      else if e.val = 0x6E then some ([0x0A], rest1)
      else if e.val = 0x72 then some ([0x0D], rest1)
      else if e.val = 0x74 then some ([0x09], rest1)
      else if e.val = 0x75 then
        match getu4 (c :: rest) with
        | none => none
        | some rr =>
          let after := rest.drop 5
          if utf16.IsSurrogate rr then
            let dec :=
              match getu4 after with
              | none => 0xFFFD
              | some rr1 => utf16.DecodeRune rr rr1
            if dec ≠ 0xFFFD then some (utf8.EncodeRune dec, after.drop 6)
            else some (utf8.EncodeRune 0xFFFD, after)
          else some (utf8.EncodeRune rr, after)
      else none
  else if c.val < 0x20 then none
  else if c.val < 0x80 then some ([c], rest)
  else
    let d := utf8.DecodeRune (c :: rest)
    some (utf8.EncodeRune d.1, rest.drop (d.2 - 1))

/-- Reading a string literal whose opening quote has been consumed: the
decoder's scan for the closing quote together with the loop of `unquoteBytes`,
with `fuel` iterations left. Returns the decoded string and the text after the
closing quote; `none` is a syntax error. -/
def unquoteAux : Nat → GoString → Option (GoString × GoString)
  | 0, _ => none
  | _ + 1, [] => none
  | fuel + 1, c :: rest =>
    if c.val = 0x22 then some ([], rest)
    else
      match unquoteStep c rest with
      | none => none
      | some (bs, rest1) => prepend bs (unquoteAux fuel rest1)

/-- Reading a string literal at the head of `s`; every iteration consumes at
least one byte. -/
def readString (s : GoString) : Option (GoString × GoString) :=
  match s with
  | [] => none
  | q :: rest => if q.val = 0x22 then unquoteAux (rest.length + 1) rest else none

end json

/-! ## keyvalue.go -/

/-- The struct `Pair`, also the shape of the documents of a collection. -/
structure Pair where
  Store : GoString
  Key : GoString
  Value : GoString
  deriving DecidableEq, Repr

/-- The zero value `Pair{}`. -/
def Pair.zero : Pair := { Store := [], Key := [], Value := [] }

namespace json

/-- Embeds `json.Marshal(result)` for the `bson.M` that the projection
`{"value": 1, "_id": 0}` leaves of a document: the object with the single
member `"value"`. -/
def Marshal (value : GoString) : GoString :=
  [0x7B] ++ appendString (lit "value") ++ [0x3A] ++ appendString value ++ [0x7D]

/-- ASCII lower case, for the case-insensitive match of member names. -/
def lower (b : Byte) : Byte :=
  if 0x41 ≤ b.val ∧ b.val ≤ 0x5A then utf8.byte (b.val + 0x20) else b

/-- Storing a decoded string member into the field of `Pair` whose name
matches the member name case-insensitively (`Pair` has no `json` tags). -/
def setField (pair : Pair) (name value : GoString) : Pair :=
  let n := name.map lower
  if n = lit "store" then { pair with Store := value }
  else if n = lit "key" then { pair with Key := value }
  else if n = lit "value" then { pair with Value := value }
  else pair

/-- Embeds `json.Unmarshal(data, &pair)` on the texts `json.Marshal` writes for a map
with at most one string member: the value of `pair` afterwards. On any other
text the model leaves `pair` as it was, as Unmarshal does on a syntax error
(the error Unmarshal returns is dropped by Get). -/
def Unmarshal (data : GoString) (pair : Pair) : Pair :=
  match data with
  | [] => pair
  | open_ :: rest =>
    if open_.val ≠ 0x7B then pair
    else if rest = [0x7D] then pair
    else
      match readString rest with
      | none => pair
      | some (name, rest1) =>
        match rest1 with
        | [] => pair
        | colon :: rest2 =>
          if colon.val ≠ 0x3A then pair
          else
            match readString rest2 with
            | none => pair
            | some (value, rest3) => if rest3 = [0x7D] then setField pair name value else pair

end json

/-- Modelled from the spec: `store.Error` (the spec's StoreError) of the
generated bindings, which are not among the sources. The variants are
`NoSuchStore` and `Other(message)`, which the source constructs with
`store.NewErrorNoSuchStore()` and `store.NewErrorOther(message)`; the spec's
not-found class is, in the source, the value `errInvalidDataType`, an `Other`. -/
inductive StoreError where
  | NoSuchStore
  | Other (message : GoString)
  deriving DecidableEq, Repr

def errNoSuchStore : StoreError := StoreError.NoSuchStore

def errInvalidDataType : StoreError := StoreError.Other (lit "invalid data type stored in map")

/-- How a call of a store operation ends: `ok v` is the return of
`Ok(v), nil`, `err e` the return of `wrpc.Err(e), nil`, and `panic` a Go
panic raised inside the call. -/
inductive Outcome (α : Type) where
  | ok (v : α)
  | err (e : StoreError)
  | panic
  deriving DecidableEq, Repr

/-- Modelled from the spec: `store.KeyResponse` (the spec's KeyListing) of the
generated bindings, with the two fields that ListKeys fills in. -/
structure KeyResponse where
  Keys : List GoString
  Cursor : Option Nat
  deriving DecidableEq, Repr

/-- The MongoDB deployment as the driver shows it to the provider.
`connectErr uri` says that `mongo.Connect` fails for the client options built
from `uri`; `opErr` that every collection operation fails with a driver error
other than `mongo.ErrNoDocuments`; `disconnectErr` that `client.Disconnect`
fails. `colls db name` is the content of collection `name` of database `db`,
in natural order. -/
structure Backend where
  connectErr : GoString → Bool
  opErr : Bool
  disconnectErr : Bool
  colls : GoString → GoString → List Pair

/-- A backend on which `mongo.Connect` for `uri`, every collection operation
and `client.Disconnect` succeed. -/
def Backend.reachable (m : Backend) (uri : GoString) : Prop :=
  m.connectErr uri = false ∧ m.opErr = false ∧ m.disconnectErr = false

instance (m : Backend) (uri : GoString) : Decidable (m.reachable uri) := by
  unfold Backend.reachable; infer_instance

/-- Replacing the content of one collection. -/
def Backend.setColl (m : Backend) (db name : GoString) (docs : List Pair) : Backend :=
  { m with colls := fun d c => if d = db ∧ c = name then docs else m.colls d c }

/-- The errors of a driver call that the source tells apart. -/
inductive DriverError where
  | ErrNoDocuments
  | other
  deriving DecidableEq, Repr

/-- Embeds `coll.FindOne(ctx, filter)`: the first document matching the filter. -/
def Backend.FindOne (m : Backend) (db name : GoString) (filter : Pair → Bool) :
    Except DriverError Pair :=
  if m.opErr then Except.error DriverError.other
  else
    match (m.colls db name).find? filter with
    | none => Except.error DriverError.ErrNoDocuments
    | some d => Except.ok d

/-- The effect on a collection of `UpdateOne` with the filter
`{key, store}`, the update `{"$set": {key, store, value}}` and upsert: the
first matching document is updated; without a match a document with the three
fields is inserted. -/
def updateOneUpsert (docs : List Pair) (key store value : GoString) : List Pair :=
  match docs with
  | [] => [{ Store := store, Key := key, Value := value }]
  | d :: rest =>
    if d.Key = key ∧ d.Store = store then
      { d with Key := key, Store := store, Value := value } :: rest
    else d :: updateOneUpsert rest key store value

/-- The effect on a collection of `DeleteOne` with the filter `{key}`: the
first document with that key is removed. -/
def deleteOne (docs : List Pair) (key : GoString) : List Pair :=
  docs.eraseP (fun d => d.Key = key)

/-- The deferred `client.Disconnect`, which panics when it fails. -/
def deferDisconnect {α : Type} (m : Backend) (out : Outcome α) : Outcome α :=
  if m.disconnectErr then Outcome.panic else out

/-- Embeds `Provider.Delete(ctx, bucket, key)`: the outcome and the backend afterwards. -/
def Delete (g : Globals) (m : Backend) (bucket key : GoString) : Outcome Unit × Backend :=
  if m.connectErr g.globalUri then (Outcome.err errNoSuchStore, m)
  else
    -- Deletes the first document with the named key
    if m.opErr then
      -- `result` is nil and `err` is not: reading `result.DeletedCount` panics
      (Outcome.panic, m)
    else
      (Outcome.ok (), m.setColl g.globalDb bucket (deleteOne (m.colls g.globalDb bucket) key))

/-- Embeds `Provider.Get(ctx, bucket, key)`. -/
def Get (g : Globals) (m : Backend) (bucket key : GoString) : Outcome GoString :=
  if m.connectErr g.globalUri then Outcome.panic
  else
    deferDisconnect m <|
      match m.FindOne g.globalDb bucket (fun d => d.Key = key) with
      | Except.error DriverError.ErrNoDocuments => Outcome.err errInvalidDataType
      | Except.error DriverError.other => Outcome.panic
      | Except.ok d =>
        -- the projection keeps the field `value` only
        let result := d.Value
        let output := json.Marshal result
        -- Turn around and unmarshal into a Go type to access the field
        let pair := json.Unmarshal output Pair.zero
        Outcome.ok pair.Value

/-- Embeds `Provider.Set(ctx, bucket, key, value)`: the outcome and the backend
afterwards. The result of `UpdateOne` is not looked at. -/
def Set (g : Globals) (m : Backend) (bucket key value : GoString) : Outcome Unit × Backend :=
  if m.connectErr g.globalUri then (Outcome.panic, m)
  else
    let store := g.globalKv
    let strvalue := value
    let m1 :=
      if m.opErr then m
      else m.setColl g.globalDb bucket
        (updateOneUpsert (m.colls g.globalDb bucket) key store strvalue)
    (deferDisconnect m (Outcome.ok ()), m1)

/-- Embeds `Provider.Exists(ctx, bucket, key)`. -/
def Exists (g : Globals) (m : Backend) (bucket key : GoString) : Outcome Bool :=
  if m.connectErr g.globalUri then Outcome.err errNoSuchStore
  else
    match m.FindOne g.globalDb bucket (fun d => d.Key = key ∧ d.Store = g.globalKv) with
    | Except.error DriverError.ErrNoDocuments => Outcome.err errInvalidDataType
    | Except.error DriverError.other => Outcome.panic
    | Except.ok _ =>
      let response := true
      Outcome.ok response

/-- Embeds `fmt.Sprintln(result)` for a `Pair`: the fields in braces, separated by
spaces, and a newline. -/
def Sprintln (result : Pair) : GoString :=
  lit "\x7b" ++ result.Store ++ lit " " ++ result.Key ++ lit " " ++ result.Value ++ lit "\x7d\n"

/-- Embeds `cursor.Decode(&result)` on a document of the projection `{"key": 1}`:
only `Key` is set. -/
def decodeKeyProjection (d : Pair) : Pair :=
  { Pair.zero with Key := d.Key }

/-- Embeds `Provider.ListKeys(ctx, bucket, cur)`. -/
def ListKeys (g : Globals) (m : Backend) (bucket : GoString) (cur : Option Nat) :
    Outcome KeyResponse :=
  let _ := cur
  if m.connectErr g.globalUri then Outcome.err errNoSuchStore
  else if m.opErr then Outcome.panic
  else
    -- Retrieves documents that match the query filter
    let cursor := (m.colls g.globalDb bucket).filter (fun d => d.Store = g.globalKv)
    -- Unpacks the cursor into a slice
    let keys := cursor.map (fun d =>
      let result := decodeKeyProjection d
      let strresult := Sprintln result
      strresult)
    Outcome.ok { Keys := keys, Cursor := none }

/-- A backend with empty collections that is reachable under every URI. -/
def Backend.empty : Backend :=
  { connectErr := fun _ => false, opErr := false, disconnectErr := false,
    colls := fun _ _ => [] }

/-- A backend that is reachable under every URI and holds `docs` in every
collection. -/
def Backend.ofDocs (docs : List Pair) : Backend :=
  { connectErr := fun _ => false, opErr := false, disconnectErr := false,
    colls := fun _ _ => docs }

/-- A backend to which no connection can be established. -/
def Backend.unreachable : Backend :=
  { connectErr := fun _ => true, opErr := false, disconnectErr := false,
    colls := fun _ _ => [] }

/-- An entry of a configuration map that is absent or empty. -/
def absentOrEmpty (config : ConfigMap) (k : GoString) : Prop :=
  config.lookup k = none ∨ config.lookup k = some []

instance (config : ConfigMap) (k : GoString) : Decidable (absentOrEmpty config k) := by
  unfold absentOrEmpty; infer_instance

/-! ## Configuration validation -/

theorem lookup_cases (config : ConfigMap) (k : GoString) :
    absentOrEmpty config k ∨ ∃ v, v ≠ [] ∧ config.lookup k = some v := by
  unfold absentOrEmpty
  cases h : config.lookup k with
  | none => exact Or.inl (Or.inl rfl)
  | some v =>
    by_cases hv : v = []
    · exact Or.inl (Or.inr (by rw [hv]))
    · exact Or.inr ⟨v, hv, rfl⟩

theorem validate_err (config : ConfigMap) (name : GoString) (g : Globals) :
    (validateMongoConfig config name g).err =
      if name = [] then some errNoConfigName
      else if absentOrEmpty config (lit "uri") then some errUriRequired
      else if absentOrEmpty config (lit "database") then some errDatabaseRequired
      else none := by
  unfold validateMongoConfig
  by_cases hn : name = []
  · simp [hn]
  · simp only [hn, if_false]
    rcases lookup_cases config (lit "uri") with hu | ⟨uri, hu0, hu⟩
    · rw [if_pos hu]
      rcases hu with hu | hu <;> simp [hu]
    · have hnu : ¬ absentOrEmpty config (lit "uri") := by
        simp [absentOrEmpty, hu, hu0]
      rw [if_neg hnu]
      simp only [hu, hu0, if_false]
      rcases lookup_cases config (lit "database") with hd | ⟨db, hd0, hd⟩
      · rw [if_pos hd]
        rcases hd with hd | hd <;> simp [hd]
      · have hnd : ¬ absentOrEmpty config (lit "database") := by
          simp [absentOrEmpty, hd, hd0]
        rw [if_neg hnd]
        simp only [hd, hd0, if_false]
        rcases lookup_cases config (lit "kv") with hk | ⟨kv, hk0, hk⟩
        · rcases hk with hk | hk <;> simp [hk]
        · simp [hk, hk0]

theorem validate_ok (config : ConfigMap) (name : GoString) (g : Globals)
    (h : (validateMongoConfig config name g).err = none) :
    ∃ uri db, name ≠ [] ∧ uri ≠ [] ∧ db ≠ [] ∧
      config.lookup (lit "uri") = some uri ∧ config.lookup (lit "database") = some db ∧
      (validateMongoConfig config name g).args =
        { Name := name, URI := uri, Database := db,
          KV := if absentOrEmpty config (lit "kv") then lit "kv"
                else (config.lookup (lit "kv")).getD [] } := by
  have he := validate_err config name g
  rw [h] at he
  by_cases hn : name = []
  · simp [hn] at he
  · rw [if_neg hn] at he
    rcases lookup_cases config (lit "uri") with hu | ⟨uri, hu0, hu⟩
    · simp [hu] at he
    · have hnu : ¬ absentOrEmpty config (lit "uri") := by simp [absentOrEmpty, hu, hu0]
      rw [if_neg hnu] at he
      rcases lookup_cases config (lit "database") with hd | ⟨db, hd0, hd⟩
      · simp [hd] at he
      · refine ⟨uri, db, hn, hu0, hd0, hu, hd, ?_⟩
        unfold validateMongoConfig
        simp only [hn, if_false, hu, hu0, hd, hd0]
        rcases lookup_cases config (lit "kv") with hk | ⟨kv, hk0, hk⟩
        · rw [if_pos hk]
          rcases hk with hk | hk <;> simp [hk, MongoConfigArgs.zero]
        · have hnk : ¬ absentOrEmpty config (lit "kv") := by simp [absentOrEmpty, hk, hk0]
          rw [if_neg hnk]
          simp [hk, hk0, MongoConfigArgs.zero]

/-- C6: `validateMongoConfig(config, name)` returns an error exactly when the
name is empty, or `config["uri"]` is absent or empty, or `config["database"]`
is absent or empty; the name is checked first, then the URI, then the
database, each with its own error; `validate({}, "link1")` fails with the
missing-URI error, whose message ends by naming a secret as the preferred way
to supply the URI. -/
theorem validateMongoConfig_error_iff (config : ConfigMap) (name : GoString) (g : Globals) :
    ((validateMongoConfig config name g).err ≠ none ↔
        (name = [] ∨ absentOrEmpty config (lit "uri") ∨ absentOrEmpty config (lit "database")))
    ∧ (validateMongoConfig config name g).err =
        (if name = [] then some errNoConfigName
         else if absentOrEmpty config (lit "uri") then some errUriRequired
         else if absentOrEmpty config (lit "database") then some errDatabaseRequired
         else none)
    ∧ (validateMongoConfig [] (lit "link1") g).err = some errUriRequired
    ∧ errUriRequired =
        lit "URI configuration is required - include URI in link configuration or "
          ++ lit "secret (preferred)" := by
  refine ⟨?_, validate_err config name g, ?_, by decide⟩
  · rw [validate_err]
    by_cases hn : name = []
    · simp [hn]
    · by_cases hu : absentOrEmpty config (lit "uri")
      · simp [hn, hu]
      · by_cases hd : absentOrEmpty config (lit "database") <;> simp [hn, hu, hd]
  · rw [validate_err]
    have h1 : ¬ (lit "link1" = []) := by decide
    have h2 : absentOrEmpty [] (lit "uri") := Or.inl rfl
    rw [if_neg h1, if_pos h2]

/-- C7: when `validateMongoConfig(config, name)` succeeds, the returned
`MongoConfigArgs` has `Name = name`, `URI = config["uri"]`,
`Database = config["database"]`, and `KV = config["kv"]` when that entry is
present and non-empty and `"kv"` otherwise; `URI`, `Database` and `KV` are
non-empty. -/
theorem validateMongoConfig_ok_fields (config : ConfigMap) (name : GoString) (g : Globals)
    (h : (validateMongoConfig config name g).err = none) :
    (validateMongoConfig config name g).args.Name = name
    ∧ config.lookup (lit "uri") = some (validateMongoConfig config name g).args.URI
    ∧ config.lookup (lit "database") = some (validateMongoConfig config name g).args.Database
    ∧ (validateMongoConfig config name g).args.KV =
        (if absentOrEmpty config (lit "kv") then lit "kv"
         else (config.lookup (lit "kv")).getD [])
    ∧ (validateMongoConfig config name g).args.URI ≠ []
    ∧ (validateMongoConfig config name g).args.Database ≠ []
    ∧ (validateMongoConfig config name g).args.KV ≠ [] := by
  obtain ⟨uri, db, _, hu0, hd0, hu, hd, ha⟩ := validate_ok config name g h
  rw [ha]
  refine ⟨rfl, hu, hd, rfl, hu0, hd0, ?_⟩
  show (if absentOrEmpty config (lit "kv") then lit "kv"
    else (config.lookup (lit "kv")).getD []) ≠ []
  by_cases hk : absentOrEmpty config (lit "kv")
  · rw [if_pos hk]; decide
  · rw [if_neg hk]
    rcases lookup_cases config (lit "kv") with hk1 | ⟨kv, hk0, hk1⟩
    · exact absurd hk1 hk
    · simpa [hk1] using hk0

/-- C7, at `{"uri":"x","database":"d"}` (namespace `"kv"`) and at
`{"uri":"x","database":"d","kv":"custom"}` (namespace `"custom"`), both
validated under the name `"link1"`. -/
theorem validateMongoConfig_ok_fields_witness :
    ((validateMongoConfig [(lit "uri", lit "x"), (lit "database", lit "d")] (lit "link1")
        Globals.initial).err = none
      ∧ (validateMongoConfig [(lit "uri", lit "x"), (lit "database", lit "d")] (lit "link1")
        Globals.initial).args.KV = lit "kv")
    ∧ ((validateMongoConfig [(lit "uri", lit "x"), (lit "database", lit "d"),
          (lit "kv", lit "custom")] (lit "link1") Globals.initial).err = none
      ∧ (validateMongoConfig [(lit "uri", lit "x"), (lit "database", lit "d"),
          (lit "kv", lit "custom")] (lit "link1") Globals.initial).args.KV = lit "custom") :=
  ⟨⟨by decide,
    ((validateMongoConfig_ok_fields [(lit "uri", lit "x"), (lit "database", lit "d")]
      (lit "link1") Globals.initial (by decide)).2.2.2.1).trans (by decide)⟩,
   ⟨by decide,
    ((validateMongoConfig_ok_fields
      [(lit "uri", lit "x"), (lit "database", lit "d"), (lit "kv", lit "custom")]
      (lit "link1") Globals.initial (by decide)).2.2.2.1).trans (by decide)⟩⟩

/-- C8, at a failing input: with `globalUri = "old"` and `globalDb = "olddb"`
active, the link `link1` with the configuration `{"uri":"new"}` is rejected by
`handleNewTargetLink` with the missing-database error, and yet `globalUri` is
`"new"` afterwards: the store operations read a configuration that differs
from the one before the call. -/
theorem handleNewTargetLink_rejected_partial :
    (handleNewTargetLink { sourceLinks := [], targetLinks := [] }
        { SourceID := lit "component", Target := lit "mongodb", Name := lit "link1",
          TargetConfig := [(lit "uri", lit "new")] }
        { Globals.initial with globalUri := lit "old", globalDb := lit "olddb" }).1
      = some errDatabaseRequired
    ∧ (handleNewTargetLink { sourceLinks := [], targetLinks := [] }
        { SourceID := lit "component", Target := lit "mongodb", Name := lit "link1",
          TargetConfig := [(lit "uri", lit "new")] }
        { Globals.initial with globalUri := lit "old", globalDb := lit "olddb" }).2.2.active
      = ([], lit "new", lit "olddb", lit "kv")
    ∧ (handleNewTargetLink { sourceLinks := [], targetLinks := [] }
        { SourceID := lit "component", Target := lit "mongodb", Name := lit "link1",
          TargetConfig := [(lit "uri", lit "new")] }
        { Globals.initial with globalUri := lit "old", globalDb := lit "olddb" }).2.2.active
      ≠ Globals.active { Globals.initial with globalUri := lit "old", globalDb := lit "olddb" } := by
  decide

/-- C9, at a failing input: after a put with `"kv":"custom"`, a put of
`{"uri":"x","database":"d"}` under the name `"link1"` succeeds and returns
`KV = "kv"`, but `globalKv` is still `"custom"`; and `globalConfigName` is
still empty although the returned `Name` is `"link1"`. -/
theorem validateMongoConfig_kv_not_reset :
    (validateMongoConfig [(lit "uri", lit "x"), (lit "database", lit "d")] (lit "link1")
        (validateMongoConfig [(lit "uri", lit "x"), (lit "database", lit "d"),
          (lit "kv", lit "custom")] (lit "link1") Globals.initial).globals).err = none
    ∧ (validateMongoConfig [(lit "uri", lit "x"), (lit "database", lit "d")] (lit "link1")
        (validateMongoConfig [(lit "uri", lit "x"), (lit "database", lit "d"),
          (lit "kv", lit "custom")] (lit "link1") Globals.initial).globals).args
      = { Name := lit "link1", URI := lit "x", Database := lit "d", KV := lit "kv" }
    ∧ (validateMongoConfig [(lit "uri", lit "x"), (lit "database", lit "d")] (lit "link1")
        (validateMongoConfig [(lit "uri", lit "x"), (lit "database", lit "d"),
          (lit "kv", lit "custom")] (lit "link1") Globals.initial).globals).globals.active
      = ([], lit "x", lit "d", lit "custom") := by
  decide

/-! ## UTF-8 and JSON string literals -/

namespace utf8

theorem byte_val (n : Nat) (b : Byte) (h : n = b.val) : byte n = b := by
  apply Fin.ext
  subst h
  show b.val % 256 = b.val
  exact Nat.mod_eq_of_lt b.isLt

theorem decode_xx (p0 : Byte) (t : GoString) (hx : first p0.val = 0xF1) :
    DecodeRune (p0 :: t) = (RuneError, 1) := by
  unfold DecodeRune
  simp only [hx]
  rw [if_pos (by decide), if_pos trivial]

theorem decode2 (p0 : Byte) (t : GoString) (x lo hi : Nat) (hx : first p0.val = x)
    (hlt : x < 0xF0) (hsz : x % 8 = 2) (hacc : acceptRanges (x / 16) = (lo, hi)) :
    DecodeRune (p0 :: t) = (RuneError, 1) ∨
    ∃ b1 t1, t = b1 :: t1 ∧ lo ≤ b1.val ∧ b1.val ≤ hi ∧
      ∀ more, DecodeRune (p0 :: b1 :: more) = (p0.val % 32 * 64 + b1.val % 64, 2) := by
  have hge : ¬ x ≥ 0xF0 := by omega
  cases t with
  | nil =>
    left
    unfold DecodeRune
    simp only [hx, hsz, hacc, if_neg hge]
    rw [if_pos (by simp)]
  | cons b1 t1 =>
    by_cases h1 : b1.val < lo ∨ hi < b1.val
    · left
      unfold DecodeRune
      simp only [hx, hsz, hacc, if_neg hge]
      rw [if_neg (by simp), if_pos h1]
    · right
      refine ⟨b1, t1, rfl, by omega, by omega, ?_⟩
      intro more
      unfold DecodeRune
      simp only [hx, hsz, hacc, if_neg hge]
      rw [if_neg (by simp), if_neg h1, if_pos (by decide)]

theorem decode3 (p0 : Byte) (t : GoString) (x lo hi : Nat) (hx : first p0.val = x)
    (hlt : x < 0xF0) (hsz : x % 8 = 3) (hacc : acceptRanges (x / 16) = (lo, hi)) :
    DecodeRune (p0 :: t) = (RuneError, 1) ∨
    ∃ b1 b2 t2, t = b1 :: b2 :: t2 ∧ lo ≤ b1.val ∧ b1.val ≤ hi ∧
      0x80 ≤ b2.val ∧ b2.val ≤ 0xBF ∧
      ∀ more, DecodeRune (p0 :: b1 :: b2 :: more) =
        (p0.val % 16 * 4096 + b1.val % 64 * 64 + b2.val % 64, 3) := by
  have hge : ¬ x ≥ 0xF0 := by omega
  rcases t with _ | ⟨b1, _ | ⟨b2, t2⟩⟩
  · left
    unfold DecodeRune
    simp only [hx, hsz, hacc, if_neg hge]
    rw [if_pos (by simp)]
  · left
    unfold DecodeRune
    simp only [hx, hsz, hacc, if_neg hge]
    rw [if_pos (by simp)]
  · by_cases h1 : b1.val < lo ∨ hi < b1.val
    · left
      unfold DecodeRune
      simp only [hx, hsz, hacc, if_neg hge]
      rw [if_neg (by simp), if_pos h1]
    · by_cases h2 : b2.val < 0x80 ∨ 0xBF < b2.val
      · left
        unfold DecodeRune
        simp only [hx, hsz, hacc, if_neg hge]
        rw [if_neg (by simp), if_neg h1, if_neg (by decide), if_pos h2]
      · right
        refine ⟨b1, b2, t2, rfl, by omega, by omega, by omega, by omega, ?_⟩
        intro more
        unfold DecodeRune
        simp only [hx, hsz, hacc, if_neg hge]
        rw [if_neg (by simp), if_neg h1, if_neg (by decide), if_neg h2, if_pos (by decide)]

theorem decode4 (p0 : Byte) (t : GoString) (x lo hi : Nat) (hx : first p0.val = x)
    (hlt : x < 0xF0) (hsz : x % 8 = 4) (hacc : acceptRanges (x / 16) = (lo, hi)) :
    DecodeRune (p0 :: t) = (RuneError, 1) ∨
    ∃ b1 b2 b3 t3, t = b1 :: b2 :: b3 :: t3 ∧ lo ≤ b1.val ∧ b1.val ≤ hi ∧
      0x80 ≤ b2.val ∧ b2.val ≤ 0xBF ∧ 0x80 ≤ b3.val ∧ b3.val ≤ 0xBF ∧
      ∀ more, DecodeRune (p0 :: b1 :: b2 :: b3 :: more) =
        (p0.val % 8 * 262144 + b1.val % 64 * 4096 + b2.val % 64 * 64 + b3.val % 64, 4) := by
  have hge : ¬ x ≥ 0xF0 := by omega
  rcases t with _ | ⟨b1, _ | ⟨b2, _ | ⟨b3, t3⟩⟩⟩
  · left
    unfold DecodeRune
    simp only [hx, hsz, hacc, if_neg hge]
    rw [if_pos (by simp)]
  · left
    unfold DecodeRune
    simp only [hx, hsz, hacc, if_neg hge]
    rw [if_pos (by simp)]
  · left
    unfold DecodeRune
    simp only [hx, hsz, hacc, if_neg hge]
    rw [if_pos (by simp)]
  · by_cases h1 : b1.val < lo ∨ hi < b1.val
    · left
      unfold DecodeRune
      simp only [hx, hsz, hacc, if_neg hge]
      rw [if_neg (by simp), if_pos h1]
    · by_cases h2 : b2.val < 0x80 ∨ 0xBF < b2.val
      · left
        unfold DecodeRune
        simp only [hx, hsz, hacc, if_neg hge]
        rw [if_neg (by simp), if_neg h1, if_neg (by decide), if_pos h2]
      · by_cases h3 : b3.val < 0x80 ∨ 0xBF < b3.val
        · left
          unfold DecodeRune
          simp only [hx, hsz, hacc, if_neg hge]
          rw [if_neg (by simp), if_neg h1, if_neg (by decide), if_neg h2, if_neg (by decide),
            if_pos h3]
        · right
          refine ⟨b1, b2, b3, t3, rfl, by omega, by omega, by omega, by omega, by omega,
            by omega, ?_⟩
          intro more
          unfold DecodeRune
          simp only [hx, hsz, hacc, if_neg hge]
          rw [if_neg (by simp), if_neg h1, if_neg (by decide), if_neg h2, if_neg (by decide),
            if_neg h3]

theorem encode2 (p0 b1 : Byte) (h0 : 0xC2 ≤ p0.val ∧ p0.val ≤ 0xDF)
    (h1 : 0x80 ≤ b1.val ∧ b1.val ≤ 0xBF) :
    EncodeRune (p0.val % 32 * 64 + b1.val % 64) = [p0, b1] := by
  unfold EncodeRune
  rw [if_neg (by omega), if_pos (by omega)]
  rw [byte_val _ p0 (by omega), byte_val _ b1 (by omega)]

theorem encode3 (p0 b1 b2 : Byte) (h0 : 0xE0 ≤ p0.val ∧ p0.val ≤ 0xEF)
    (h1 : 0x80 ≤ b1.val ∧ b1.val ≤ 0xBF) (hE0 : p0.val = 0xE0 → 0xA0 ≤ b1.val)
    (hED : p0.val = 0xED → b1.val ≤ 0x9F) (h2 : 0x80 ≤ b2.val ∧ b2.val ≤ 0xBF) :
    EncodeRune (p0.val % 16 * 4096 + b1.val % 64 * 64 + b2.val % 64) = [p0, b1, b2] := by
  unfold EncodeRune MaxRune
  rw [if_neg (by omega), if_neg (by omega), if_neg (by omega), if_pos (by omega)]
  rw [byte_val _ p0 (by omega), byte_val _ b1 (by omega), byte_val _ b2 (by omega)]

theorem encode4 (p0 b1 b2 b3 : Byte) (h0 : 0xF0 ≤ p0.val ∧ p0.val ≤ 0xF4)
    (h1 : 0x80 ≤ b1.val ∧ b1.val ≤ 0xBF) (hF0 : p0.val = 0xF0 → 0x90 ≤ b1.val)
    (hF4 : p0.val = 0xF4 → b1.val ≤ 0x8F) (h2 : 0x80 ≤ b2.val ∧ b2.val ≤ 0xBF)
    (h3 : 0x80 ≤ b3.val ∧ b3.val ≤ 0xBF) :
    EncodeRune (p0.val % 8 * 262144 + b1.val % 64 * 4096 + b2.val % 64 * 64 + b3.val % 64)
      = [p0, b1, b2, b3] := by
  unfold EncodeRune MaxRune
  rw [if_neg (by omega), if_neg (by omega), if_neg (by omega), if_neg (by omega)]
  rw [byte_val _ p0 (by omega), byte_val _ b1 (by omega), byte_val _ b2 (by omega),
    byte_val _ b3 (by omega)]

theorem valid2 (b : Byte) (t : GoString) (x : Nat) (hx : first b.val = x)
    (hsz : x = 0x02) (hb : 0xC2 ≤ b.val ∧ b.val ≤ 0xDF) :
    DecodeRune (b :: t) = (RuneError, 1) ∨ WellFormedAt b t := by
  subst hsz
  rcases decode2 b t 0x02 0x80 0xBF hx (by decide) (by decide) rfl with
    h | ⟨b1, t1, rfl, hlo, hhi, hd⟩
  · exact Or.inl h
  · right
    refine ⟨[b1], t1, rfl, ?_, ?_, ?_, by simp⟩
    · rw [hd t1]; rfl
    · rw [hd t1]; exact encode2 b b1 hb ⟨hlo, hhi⟩
    · intro more; rw [hd t1]; exact hd more

theorem valid3 (b : Byte) (t : GoString) (x lo hi : Nat) (hx : first b.val = x)
    (hlt : x < 0xF0) (hsz : x % 8 = 3) (hacc : acceptRanges (x / 16) = (lo, hi))
    (hb : 0xE0 ≤ b.val ∧ b.val ≤ 0xEF) (hlo : 0x80 ≤ lo) (hhi : hi ≤ 0xBF)
    (hE0 : b.val = 0xE0 → 0xA0 ≤ lo) (hED : b.val = 0xED → hi ≤ 0x9F) :
    DecodeRune (b :: t) = (RuneError, 1) ∨ WellFormedAt b t := by
  rcases decode3 b t x lo hi hx hlt hsz hacc with
    h | ⟨b1, b2, t2, rfl, h1lo, h1hi, h2lo, h2hi, hd⟩
  · exact Or.inl h
  · right
    refine ⟨[b1, b2], t2, rfl, ?_, ?_, ?_, by simp⟩
    · rw [hd t2]; rfl
    · rw [hd t2]
      exact encode3 b b1 b2 hb ⟨by omega, by omega⟩ (fun h => by have := hE0 h; omega)
        (fun h => by have := hED h; omega) ⟨h2lo, h2hi⟩
    · intro more; rw [hd t2]; exact hd more

theorem valid4 (b : Byte) (t : GoString) (x lo hi : Nat) (hx : first b.val = x)
    (hlt : x < 0xF0) (hsz : x % 8 = 4) (hacc : acceptRanges (x / 16) = (lo, hi))
    (hb : 0xF0 ≤ b.val ∧ b.val ≤ 0xF4) (hlo : 0x80 ≤ lo) (hhi : hi ≤ 0xBF)
    (hF0 : b.val = 0xF0 → 0x90 ≤ lo) (hF4 : b.val = 0xF4 → hi ≤ 0x8F) :
    DecodeRune (b :: t) = (RuneError, 1) ∨ WellFormedAt b t := by
  rcases decode4 b t x lo hi hx hlt hsz hacc with
    h | ⟨b1, b2, b3, t3, rfl, h1lo, h1hi, h2lo, h2hi, h3lo, h3hi, hd⟩
  · exact Or.inl h
  · right
    refine ⟨[b1, b2, b3], t3, rfl, ?_, ?_, ?_, by simp⟩
    · rw [hd t3]; rfl
    · rw [hd t3]
      exact encode4 b b1 b2 b3 hb ⟨by omega, by omega⟩ (fun h => by have := hF0 h; omega)
        (fun h => by have := hF4 h; omega) ⟨h2lo, h2hi⟩ ⟨h3lo, h3hi⟩
    · intro more; rw [hd t3]; exact hd more

theorem decode_valid (b : Byte) (t : GoString) (hb : 0x80 ≤ b.val) :
    DecodeRune (b :: t) = (RuneError, 1) ∨ WellFormedAt b t := by
  have hlt := b.isLt
  have n1 : ¬ b.val < 0x80 := by omega
  by_cases c1 : b.val < 0xC2
  · exact Or.inl (decode_xx b t (by unfold first; rw [if_neg n1, if_pos c1]))
  by_cases c2 : b.val < 0xE0
  · exact valid2 b t _ (by unfold first; rw [if_neg n1, if_neg c1, if_pos c2]) rfl
      ⟨by omega, by omega⟩
  by_cases c3 : b.val = 0xE0
  · exact valid3 b t 0x13 0xA0 0xBF
      (by unfold first; rw [if_neg n1, if_neg c1, if_neg c2, if_pos c3])
      (by decide) (by decide) rfl ⟨by omega, by omega⟩ (by decide) (by decide)
      (fun _ => by decide) (fun h => by omega)
  by_cases c4 : b.val < 0xED
  · exact valid3 b t 0x03 0x80 0xBF
      (by unfold first; rw [if_neg n1, if_neg c1, if_neg c2, if_neg c3, if_pos c4])
      (by decide) (by decide) rfl ⟨by omega, by omega⟩ (by decide) (by decide)
      (fun h => by omega) (fun h => by omega)
  by_cases c5 : b.val = 0xED
  · exact valid3 b t 0x23 0x80 0x9F
      (by unfold first; rw [if_neg n1, if_neg c1, if_neg c2, if_neg c3, if_neg c4, if_pos c5])
      (by decide) (by decide) rfl ⟨by omega, by omega⟩ (by decide) (by decide)
      (fun h => by omega) (fun _ => by decide)
  by_cases c6 : b.val < 0xF0
  · exact valid3 b t 0x03 0x80 0xBF
      (by unfold first
          rw [if_neg n1, if_neg c1, if_neg c2, if_neg c3, if_neg c4, if_neg c5, if_pos c6])
      (by decide) (by decide) rfl ⟨by omega, by omega⟩ (by decide) (by decide)
      (fun h => by omega) (fun h => by omega)
  by_cases c7 : b.val = 0xF0
  · exact valid4 b t 0x34 0x90 0xBF
      (by unfold first
          rw [if_neg n1, if_neg c1, if_neg c2, if_neg c3, if_neg c4, if_neg c5, if_neg c6,
            if_pos c7])
      (by decide) (by decide) rfl ⟨by omega, by omega⟩ (by decide) (by decide)
      (fun _ => by decide) (fun h => by omega)
  by_cases c8 : b.val < 0xF4
  · exact valid4 b t 0x04 0x80 0xBF
      (by unfold first
          rw [if_neg n1, if_neg c1, if_neg c2, if_neg c3, if_neg c4, if_neg c5, if_neg c6,
            if_neg c7, if_pos c8])
      (by decide) (by decide) rfl ⟨by omega, by omega⟩ (by decide) (by decide)
      (fun h => by omega) (fun h => by omega)
  by_cases c9 : b.val = 0xF4
  · exact valid4 b t 0x44 0x80 0x8F
      (by unfold first
          rw [if_neg n1, if_neg c1, if_neg c2, if_neg c3, if_neg c4, if_neg c5, if_neg c6,
            if_neg c7, if_neg c8, if_pos c9])
      (by decide) (by decide) rfl ⟨by omega, by omega⟩ (by decide) (by decide)
      (fun h => by omega) (fun _ => by decide)
  · exact Or.inl (decode_xx b t (by
      unfold first
      rw [if_neg n1, if_neg c1, if_neg c2, if_neg c3, if_neg c4, if_neg c5, if_neg c6,
        if_neg c7, if_neg c8, if_neg c9]))

theorem decode_ascii (b : Byte) (t : GoString) (hb : b.val < 0x80) :
    DecodeRune (b :: t) = (b.val, 1) := by
  have hf : first b.val = 0xF0 := by unfold first; rw [if_pos hb]
  unfold DecodeRune
  simp only [hf]
  rw [if_pos (by decide), if_neg (by decide)]

theorem DecodeRune_take4 (s : GoString) : DecodeRune (s.take 4) = DecodeRune s := by
  cases s with
  | nil => rfl
  | cons b t =>
    have htake : (b :: t).take 4 = b :: t.take 3 := rfl
    rw [htake]
    by_cases hb : b.val < 0x80
    · rw [decode_ascii b _ hb, decode_ascii b _ hb]
    · rcases decode_valid b t (by omega) with h | ⟨pre, post, rfl, _, _, hmore, hlen⟩
      · rcases decode_valid b (t.take 3) (by omega) with
          h' | ⟨pre', post', ht, hsz', henc', hmore', _⟩
        · rw [h, h']
        · exfalso
          have ht2 : t = pre' ++ (post' ++ t.drop 3) := by
            rw [← List.append_assoc, ← ht, List.take_append_drop]
          have hD : DecodeRune (b :: t.take 3) = (RuneError, 1) := by
            rw [← hmore' (post' ++ t.drop 3), ← ht2]; exact h
          rw [hD] at hsz' henc'
          have h1 : 1 = pre'.length + 1 := hsz'
          have hp : pre' = [] := List.eq_nil_of_length_eq_zero (by omega)
          subst hp
          have : (EncodeRune RuneError).length = 1 := by rw [henc']; rfl
          exact absurd this (by decide)
      · have : List.take 3 (pre ++ post) = pre ++ List.take (3 - pre.length) post := by
          rw [List.take_append_eq_append_take, List.take_of_length_le hlen]
        rw [this, hmore, hmore]

end utf8

namespace json
open utf8

theorem hexVal_hex (n : Nat) (h : n < 16) : hexVal (hex n).val = some n := by
  interval_cases n <;> rfl

theorem unquote_quote (f : Nat) (s : GoString) :
    unquoteAux (f + 1) ((0x22 : Byte) :: s) = some ([], s) := by
  rw [unquoteAux, if_pos (by decide)]

theorem unquote_step (f : Nat) (c : Byte) (s bs s1 : GoString) (h1 : c.val ≠ 0x22)
    (h : unquoteStep c s = some (bs, s1)) :
    unquoteAux (f + 1) (c :: s) = prepend bs (unquoteAux f s1) := by
  rw [unquoteAux, if_neg h1, h]

theorem step_ascii (c : Byte) (s : GoString) (h2 : c.val ≠ 0x5C) (h3 : 0x20 ≤ c.val)
    (h4 : c.val < 0x80) : unquoteStep c s = some ([c], s) := by
  unfold unquoteStep
  rw [if_neg h2, if_neg (by omega), if_pos h4]

theorem step_multi (c : Byte) (s : GoString) (h : 0x80 ≤ c.val) :
    unquoteStep c s =
      some (EncodeRune (DecodeRune (c :: s)).1, s.drop ((DecodeRune (c :: s)).2 - 1)) := by
  unfold unquoteStep
  rw [if_neg (by omega), if_neg (by omega), if_neg (by omega)]

theorem getu4_low (b : Byte) (s : GoString) (hb : b.val < 0x80) :
    getu4 ((0x5C : Byte) :: 0x75 :: 0x30 :: 0x30 :: hex (b.val / 16) :: hex (b.val % 16) :: s)
      = some b.val := by
  unfold getu4
  simp only []
  rw [if_neg (by decide), hexVal_hex _ (by omega), hexVal_hex _ (by omega)]
  have h0 : hexVal (0x30 : Byte).val = some 0 := rfl
  rw [h0]
  simp only [Option.some.injEq]
  omega

theorem step_u00 (b : Byte) (s : GoString) (hb : b.val < 0x80) :
    unquoteStep (0x5C : Byte)
        (0x75 :: 0x30 :: 0x30 :: hex (b.val / 16) :: hex (b.val % 16) :: s)
      = some ([b], s) := by
  unfold unquoteStep
  rw [if_pos (by decide)]
  simp only []
  rw [if_neg (by decide), if_neg (by decide), if_neg (by decide), if_neg (by decide),
    if_neg (by decide), if_neg (by decide), if_pos (by decide), getu4_low b s hb]
  have hs : utf16.IsSurrogate b.val = false := by
    simp [utf16.IsSurrogate]; omega
  have he : EncodeRune b.val = [b] := by
    unfold EncodeRune
    rw [if_pos (by omega), byte_val _ b rfl]
  simp [hs, he]

theorem step_simple (e : Byte) (s : GoString) (h : e.val = 0x22 ∨ e.val = 0x5C ∨ e.val = 0x2F) :
    unquoteStep (0x5C : Byte) (e :: s) = some ([e], s) := by
  unfold unquoteStep
  rw [if_pos (by decide)]
  simp only []
  rw [if_pos h]

theorem step_b (s : GoString) :
    unquoteStep (0x5C : Byte) (0x62 :: s) = some ([0x08], s) := by
  unfold unquoteStep
  rw [if_pos (by decide)]
  simp only []
  rw [if_neg (by decide), if_pos (by decide)]

theorem step_f (s : GoString) :
    unquoteStep (0x5C : Byte) (0x66 :: s) = some ([0x0C], s) := by
  unfold unquoteStep
  rw [if_pos (by decide)]
  simp only []
  rw [if_neg (by decide), if_neg (by decide), if_pos (by decide)]

theorem step_n (s : GoString) :
    unquoteStep (0x5C : Byte) (0x6E :: s) = some ([0x0A], s) := by
  unfold unquoteStep
  rw [if_pos (by decide)]
  simp only []
  rw [if_neg (by decide), if_neg (by decide), if_neg (by decide), if_pos (by decide)]

theorem step_r (s : GoString) :
    unquoteStep (0x5C : Byte) (0x72 :: s) = some ([0x0D], s) := by
  unfold unquoteStep
  rw [if_pos (by decide)]
  simp only []
  rw [if_neg (by decide), if_neg (by decide), if_neg (by decide), if_neg (by decide),
    if_pos (by decide)]

theorem step_t (s : GoString) :
    unquoteStep (0x5C : Byte) (0x74 :: s) = some ([0x09], s) := by
  unfold unquoteStep
  rw [if_pos (by decide)]
  simp only []
  rw [if_neg (by decide), if_neg (by decide), if_neg (by decide), if_neg (by decide),
    if_neg (by decide), if_pos (by decide)]

theorem step_escape (b : Byte) (s : GoString) (hb : b.val < 0x80) :
    ∃ es, escapeByte b = (0x5C : Byte) :: es ∧
      unquoteStep (0x5C : Byte) (es ++ s) = some ([b], s) := by
  unfold escapeByte
  by_cases c1 : b.val = 0x5C ∨ b.val = 0x22
  · rw [if_pos c1]
    exact ⟨[b], rfl, step_simple b s (by omega)⟩
  rw [if_neg c1]
  by_cases c2 : b.val = 0x08
  · rw [if_pos c2]
    have hb8 : b = 0x08 := Fin.ext c2
    subst hb8
    exact ⟨[0x62], rfl, step_b s⟩
  rw [if_neg c2]
  by_cases c3 : b.val = 0x0C
  · rw [if_pos c3]
    have hb8 : b = 0x0C := Fin.ext c3
    subst hb8
    exact ⟨[0x66], rfl, step_f s⟩
  rw [if_neg c3]
  by_cases c4 : b.val = 0x0A
  · rw [if_pos c4]
    have hb8 : b = 0x0A := Fin.ext c4
    subst hb8
    exact ⟨[0x6E], rfl, step_n s⟩
  rw [if_neg c4]
  by_cases c5 : b.val = 0x0D
  · rw [if_pos c5]
    have hb8 : b = 0x0D := Fin.ext c5
    subst hb8
    exact ⟨[0x72], rfl, step_r s⟩
  rw [if_neg c5]
  by_cases c6 : b.val = 0x09
  · rw [if_pos c6]
    have hb8 : b = 0x09 := Fin.ext c6
    subst hb8
    exact ⟨[0x74], rfl, step_t s⟩
  rw [if_neg c6]
  exact ⟨_, rfl, step_u00 b s hb⟩

theorem step_u202x (r : Nat) (s : GoString) (hr : r = 0x2028 ∨ r = 0x2029) :
    unquoteStep (0x5C : Byte) (0x75 :: 0x32 :: 0x30 :: 0x32 :: hex (r % 16) :: s)
      = some (EncodeRune r, s) := by
  have hg : getu4 ((0x5C : Byte) :: 0x75 :: 0x32 :: 0x30 :: 0x32 :: hex (r % 16) :: s)
      = some r := by
    unfold getu4
    simp only []
    rw [if_neg (by decide), hexVal_hex _ (by omega)]
    have h0 : hexVal (0x30 : Byte).val = some 0 := rfl
    have h2 : hexVal (0x32 : Byte).val = some 2 := rfl
    rw [h0, h2]
    simp only [Option.some.injEq]
    omega
  have hs : utf16.IsSurrogate r = false := by
    simp [utf16.IsSurrogate]; omega
  unfold unquoteStep
  rw [if_pos (by decide)]
  simp only []
  rw [if_neg (by decide), if_neg (by decide), if_neg (by decide), if_neg (by decide),
    if_neg (by decide), if_neg (by decide), if_pos (by decide), hg]
  simp [hs]

theorem roundtrip_aux : ∀ (n : Nat) (v rest : GoString) (fuel : Nat),
    v.length ≤ n → ValidAux n v = true → v.length < fuel →
    unquoteAux fuel (appendStringAux n v ++ (0x22 : Byte) :: rest) = some (v, rest) := by
  intro n
  induction n with
  | zero =>
    intro v rest fuel hl _ hf
    have hv : v = [] := List.eq_nil_of_length_eq_zero (by omega)
    subst hv
    obtain ⟨f, rfl⟩ : ∃ f, fuel = f + 1 := ⟨fuel - 1, by omega⟩
    rw [appendStringAux]
    exact unquote_quote f rest
  | succ n ih =>
    intro v rest fuel hl hv hf
    obtain ⟨f, rfl⟩ : ∃ f, fuel = f + 1 := ⟨fuel - 1, by omega⟩
    cases v with
    | nil =>
      rw [appendStringAux]
      exact unquote_quote f rest
    | cons b t =>
      have hlt : t.length ≤ n := by simp at hl; omega
      have hft : t.length < f := by simp at hf; omega
      rw [appendStringAux]
      rw [ValidAux] at hv
      by_cases hb : b.val < 0x80
      · rw [if_pos hb] at hv ⊢
        have ih1 := ih t rest f hlt hv hft
        by_cases hs : htmlSafeSet b.val = true
        · rw [if_pos hs]
          have hq : b.val ≠ 0x22 ∧ b.val ≠ 0x5C ∧ 0x20 ≤ b.val := by
            simp [htmlSafeSet] at hs
            omega
          show unquoteAux (f + 1) (b :: (appendStringAux n t ++ (0x22 : Byte) :: rest)) = _
          rw [unquote_step f b _ [b] _ hq.1 (step_ascii b _ hq.2.1 hq.2.2 hb), ih1]
          rfl
        · rw [if_neg hs]
          obtain ⟨es, hes, hstep⟩ :=
            step_escape b (appendStringAux n t ++ (0x22 : Byte) :: rest) hb
          rw [hes]
          rw [List.append_assoc, List.cons_append]
          rw [unquote_step f _ _ [b] _ (by decide) hstep, ih1]
          rfl
      · rw [if_neg hb] at hv ⊢
        simp only [] at hv ⊢
        rw [DecodeRune_take4]
        rcases decode_valid b t (by omega) with herr | ⟨pre, post, ht, hsz, henc, hmore, _⟩
        · rw [herr] at hv
          simp at hv
        · have hne : ¬ ((DecodeRune (b :: t)).1 = RuneError ∧ (DecodeRune (b :: t)).2 = 1) := by
            intro h
            rw [if_pos h] at hv
            exact Bool.false_ne_true hv
          rw [if_neg hne] at hv
          have hdrop : List.drop ((DecodeRune (b :: t)).2 - 1) t = post := by
            rw [hsz, ht]
            simp
          rw [hdrop] at hv ⊢
          have hpl : post.length ≤ t.length := by rw [ht]; simp
          have ih1 := ih post rest f (by omega) hv (by omega)
          unfold appendRune
          rw [if_neg hne]
          by_cases h2 : (DecodeRune (b :: t)).1 = 0x2028 ∨ (DecodeRune (b :: t)).1 = 0x2029
          · rw [if_pos h2]
            show unquoteAux (f + 1) ((0x5C : Byte) :: (0x75 :: 0x32 :: 0x30 :: 0x32 ::
              hex ((DecodeRune (b :: t)).1 % 16) ::
                (appendStringAux n post ++ (0x22 : Byte) :: rest))) = _
            rw [unquote_step f _ _ _ _ (by decide) (step_u202x _ _ h2), ih1, henc, ht]
            rfl
          · rw [if_neg h2]
            have htake : List.take (DecodeRune (b :: t)).2 (b :: t) = b :: pre := by
              rw [hsz, ht]
              simp
            rw [htake]
            rw [List.append_assoc, List.cons_append]
            have hstep := step_multi b (pre ++ (appendStringAux n post ++ (0x22 : Byte) :: rest))
              (by omega)
            rw [hmore, henc, hsz] at hstep
            have hd : List.drop (pre.length + 1 - 1)
                (pre ++ (appendStringAux n post ++ (0x22 : Byte) :: rest))
                = appendStringAux n post ++ (0x22 : Byte) :: rest := by
              simp
            rw [hd] at hstep
            rw [unquote_step f b _ _ _ (by omega) hstep, ih1, ht]
            rfl

theorem appendStringAux_length : ∀ (n : Nat) (v : GoString),
    v.length ≤ n → v.length ≤ (appendStringAux n v).length := by
  intro n
  induction n with
  | zero =>
    intro v hl
    rw [appendStringAux]
    simpa using hl
  | succ n ih =>
    intro v hl
    cases v with
    | nil => simp
    | cons b t =>
      have hlt : t.length ≤ n := by simp at hl; omega
      rw [appendStringAux]
      by_cases hb : b.val < 0x80
      · rw [if_pos hb]
        have ih1 := ih t hlt
        by_cases hs : htmlSafeSet b.val = true
        · rw [if_pos hs]
          simp only [List.length_append, List.length_cons, List.length_nil]
          omega
        · rw [if_neg hs]
          obtain ⟨es, hes, _⟩ := step_escape b [] hb
          rw [hes]
          simp only [List.length_append, List.length_cons]
          omega
      · rw [if_neg hb]
        simp only []
        rw [DecodeRune_take4]
        rcases decode_valid b t (by omega) with herr | ⟨pre, post, ht, hsz, _, _, hpre⟩
        · rw [herr]
          have ih1 := ih t hlt
          unfold appendRune
          rw [if_pos ⟨rfl, rfl⟩]
          simp only [List.length_append, List.length_cons, List.length_nil, Nat.sub_self,
            List.drop_zero]
          omega
        · have hdrop : List.drop ((DecodeRune (b :: t)).2 - 1) t = post := by
            rw [hsz, ht]
            simp
          have hpl : t.length = pre.length + post.length := by rw [ht]; simp
          have ih1 := ih post (by omega)
          rw [hdrop]
          unfold appendRune
          by_cases h1 : (DecodeRune (b :: t)).1 = RuneError ∧ (DecodeRune (b :: t)).2 = 1
          · rw [if_pos h1]
            simp only [List.length_append, List.length_cons, List.length_nil]
            omega
          · rw [if_neg h1]
            by_cases h2 : (DecodeRune (b :: t)).1 = 0x2028 ∨ (DecodeRune (b :: t)).1 = 0x2029
            · rw [if_pos h2]
              simp only [List.length_append, List.length_cons, List.length_nil]
              omega
            · rw [if_neg h2]
              have htake : List.take (DecodeRune (b :: t)).2 (b :: t) = b :: pre := by
                rw [hsz, ht]
                simp
              rw [htake]
              simp only [List.length_append, List.length_cons]
              omega

theorem readString_appendString (v rest : GoString) (hv : Valid v = true) :
    readString (appendString v ++ rest) = some (v, rest) := by
  unfold appendString readString
  simp only [List.cons_append, List.nil_append, List.append_assoc]
  rw [if_pos (by decide)]
  apply roundtrip_aux v.length v rest _ (Nat.le_refl _) hv
  have := appendStringAux_length v.length v (Nat.le_refl _)
  simp only [List.length_append, List.length_cons]
  omega

theorem Unmarshal_Marshal (v : GoString) (hv : Valid v = true) :
    Unmarshal (Marshal v) Pair.zero = { Pair.zero with Value := v } := by
  have h1 : Marshal v =
      (0x7B : Byte) :: (appendString (lit "value") ++
        ((0x3A : Byte) :: (appendString v ++ [(0x7D : Byte)]))) := by
    simp [Marshal]
  have hk := readString_appendString (lit "value")
    ((0x3A : Byte) :: (appendString v ++ [(0x7D : Byte)])) (by decide)
  have hval := readString_appendString v [(0x7D : Byte)] hv
  have hne : appendString (lit "value") ++
      ((0x3A : Byte) :: (appendString v ++ [(0x7D : Byte)])) ≠ [(0x7D : Byte)] := by
    intro h
    have := congrArg List.length h
    simp [appendString] at this
  rw [h1]
  unfold Unmarshal
  simp only []
  rw [if_neg (by decide), if_neg hne, hk]
  simp only []
  rw [if_neg (by decide), hval]
  simp only []
  rw [if_pos trivial]
  rfl

end json

/-! ## Store operations -/

/-- C10, on a backend to which no connection can be established: for all
arguments Delete, Exists and ListKeys return `Err(NoSuchStore)`, while Get and
Set panic. -/
theorem unreachable_outcomes (g : Globals) (bucket key value : GoString) (cur : Option Nat) :
    Get g Backend.unreachable bucket key = Outcome.panic
    ∧ (Set g Backend.unreachable bucket key value).1 = Outcome.panic
    ∧ (Delete g Backend.unreachable bucket key).1 = Outcome.err StoreError.NoSuchStore
    ∧ Exists g Backend.unreachable bucket key = Outcome.err StoreError.NoSuchStore
    ∧ ListKeys g Backend.unreachable bucket cur = Outcome.err StoreError.NoSuchStore := by
  simp [Get, Set, Delete, Exists, ListKeys, Backend.unreachable, errNoSuchStore]

/-- C3, on a reachable backend with empty collections: for every bucket and
key, Get returns the error `Other("invalid data type stored in map")`, and so
does Exists, which returns `Ok(false)` on no backend at all. -/
theorem absent_key_outcomes (g : Globals) (bucket key : GoString) :
    Get g Backend.empty bucket key = Outcome.err errInvalidDataType
    ∧ Exists g Backend.empty bucket key = Outcome.err errInvalidDataType
    ∧ ∀ (m : Backend), Exists g m bucket key ≠ Outcome.ok false := by
  refine ⟨by simp [Get, Backend.empty, Backend.FindOne, deferDisconnect],
    by simp [Exists, Backend.empty, Backend.FindOne], ?_⟩
  intro m
  unfold Exists
  split_ifs
  · simp
  · split <;> simp

/-- C5, at a failing input: after writing the keys `a`, `b` and `c` into an
empty bucket, ListKeys returns the three strings `"{ a }\n"`, `"{ b }\n"` and
`"{ c }\n"` (each a formatted `Pair`), none of which is a written key. -/
theorem ListKeys_formatted_pairs :
    ListKeys Globals.configured
      (Set Globals.configured
        (Set Globals.configured
          (Set Globals.configured Backend.empty (lit "b") (lit "a") (lit "1")).2
          (lit "b") (lit "b") (lit "2")).2
        (lit "b") (lit "c") (lit "3")).2
      (lit "b") none
    = Outcome.ok
        { Keys := [lit "\x7b a \x7d\n", lit "\x7b b \x7d\n", lit "\x7b c \x7d\n"],
          Cursor := none } := by
  decide

/-! ## Upsert, find and delete on a collection -/

theorem find_upsert (docs : List Pair) (key store value : GoString)
    (h : ∀ d, docs.find? (fun d => d.Key = key) = some d → d.Store = store) :
    (updateOneUpsert docs key store value).find? (fun d => d.Key = key)
      = some { Store := store, Key := key, Value := value } := by
  induction docs with
  | nil => simp [updateOneUpsert]
  | cons d rest ih =>
    unfold updateOneUpsert
    by_cases hk : d.Key = key
    · have hs : d.Store = store := h d (by simp [hk])
      rw [if_pos ⟨hk, hs⟩]
      simp
    · rw [if_neg (fun hc => hk hc.1)]
      rw [List.find?_cons_of_neg _ (by simpa using hk)]
      apply ih
      intro d1 h1
      apply h d1
      rw [List.find?_cons_of_neg _ (by simpa using hk)]
      exact h1

theorem find_upsert_ns (docs : List Pair) (key store value : GoString) :
    (updateOneUpsert docs key store value).find? (fun d => d.Key = key ∧ d.Store = store)
      = some { Store := store, Key := key, Value := value } := by
  induction docs with
  | nil => simp [updateOneUpsert]
  | cons d rest ih =>
    unfold updateOneUpsert
    by_cases hk : d.Key = key ∧ d.Store = store
    · rw [if_pos hk]
      simp
    · rw [if_neg hk, List.find?_cons_of_neg _ (by simpa using hk)]
      exact ih

theorem upsert_idem (docs : List Pair) (key store value : GoString) :
    updateOneUpsert (updateOneUpsert docs key store value) key store value
      = updateOneUpsert docs key store value := by
  induction docs with
  | nil => simp [updateOneUpsert]
  | cons d rest ih =>
    by_cases hk : d.Key = key ∧ d.Store = store
    · simp [updateOneUpsert, hk]
    · rw [updateOneUpsert, if_neg hk, updateOneUpsert, if_neg hk, ih]

theorem upsert_length_again (docs : List Pair) (key store v1 v2 : GoString) :
    (updateOneUpsert (updateOneUpsert docs key store v1) key store v2).length
      = (updateOneUpsert docs key store v1).length := by
  induction docs with
  | nil => simp [updateOneUpsert]
  | cons d rest ih =>
    by_cases hk : d.Key = key ∧ d.Store = store
    · simp [updateOneUpsert, hk]
    · rw [updateOneUpsert, if_neg hk, updateOneUpsert, if_neg hk]
      simp [ih]

theorem upsert_count (docs : List Pair) (key store value : GoString) :
    (updateOneUpsert docs key store value).countP (fun d => d.Key = key ∧ d.Store = store)
      = max 1 (docs.countP (fun d => d.Key = key ∧ d.Store = store)) := by
  induction docs with
  | nil => simp [updateOneUpsert]
  | cons d rest ih =>
    by_cases hk : d.Key = key ∧ d.Store = store
    · rw [updateOneUpsert, if_pos hk]
      rw [List.countP_cons_of_pos _ _ (by simp), List.countP_cons_of_pos _ _ (by simpa using hk)]
      omega
    · rw [updateOneUpsert, if_neg hk]
      rw [List.countP_cons_of_neg _ _ (by simpa using hk),
        List.countP_cons_of_neg _ _ (by simpa using hk), ih]

theorem eraseP_none_left (docs : List Pair) (key : GoString)
    (h : docs.countP (fun d => d.Key = key) ≤ 1) :
    ∀ d ∈ deleteOne docs key, d.Key ≠ key := by
  induction docs with
  | nil => simp [deleteOne]
  | cons d rest ih =>
    unfold deleteOne at ih ⊢
    by_cases hk : d.Key = key
    · rw [List.eraseP_cons_of_pos (by simpa using hk)]
      rw [List.countP_cons_of_pos _ _ (by simpa using hk)] at h
      have h0 : rest.countP (fun d => d.Key = key) = 0 := by omega
      rw [List.countP_eq_zero] at h0
      intro x hx
      simpa using h0 x hx
    · rw [List.eraseP_cons_of_neg (by simpa using hk)]
      rw [List.countP_cons_of_neg _ _ (by simpa using hk)] at h
      intro x hx
      rcases List.mem_cons.mp hx with rfl | hx
      · exact hk
      · exact ih h x hx

theorem deleteOne_absent (docs : List Pair) (key : GoString)
    (h : ∀ d ∈ docs, d.Key ≠ key) : deleteOne docs key = docs := by
  unfold deleteOne
  exact List.eraseP_of_forall_not (by simpa using h)

theorem setColl_same (m : Backend) (db name : GoString) (docs : List Pair) :
    (m.setColl db name docs).colls db name = docs := by
  simp [Backend.setColl]

theorem setColl_self (m : Backend) (db name : GoString) (d c : GoString) :
    (m.setColl db name (m.colls db name)).colls d c = m.colls d c := by
  unfold Backend.setColl
  by_cases h : d = db ∧ c = name
  · simp [h]
  · simp only [if_neg h]

theorem setColl_again (m : Backend) (db name : GoString) (docs : List Pair) (d c : GoString) :
    ((m.setColl db name docs).setColl db name docs).colls d c
      = (m.setColl db name docs).colls d c := by
  unfold Backend.setColl
  by_cases h : d = db ∧ c = name
  · simp [h]
  · simp [h]

theorem Set_reachable (g : Globals) (m : Backend) (bucket key value : GoString)
    (hr : m.reachable g.globalUri) :
    Set g m bucket key value =
      (Outcome.ok (), m.setColl g.globalDb bucket
        (updateOneUpsert (m.colls g.globalDb bucket) key g.globalKv value)) := by
  obtain ⟨h1, h2, h3⟩ := hr
  simp [Set, h1, h2, h3, deferDisconnect]

theorem setColl_reachable (m : Backend) (uri db name : GoString) (docs : List Pair)
    (hr : m.reachable uri) : (m.setColl db name docs).reachable uri := hr

theorem Get_found (g : Globals) (m : Backend) (bucket key : GoString) (d : Pair)
    (hr : m.reachable g.globalUri)
    (hf : (m.colls g.globalDb bucket).find? (fun d => d.Key = key) = some d)
    (hv : utf8.Valid d.Value = true) :
    Get g m bucket key = Outcome.ok d.Value := by
  obtain ⟨h1, h2, h3⟩ := hr
  simp [Get, h1, h2, h3, deferDisconnect, Backend.FindOne, hf, json.Unmarshal_Marshal _ hv]

theorem Exists_found (g : Globals) (m : Backend) (bucket key : GoString) (d : Pair)
    (hr : m.reachable g.globalUri)
    (hf : (m.colls g.globalDb bucket).find? (fun d => d.Key = key ∧ d.Store = g.globalKv)
      = some d) :
    Exists g m bucket key = Outcome.ok true := by
  obtain ⟨h1, h2, _⟩ := hr
  simp only [Exists, h1, Backend.FindOne, h2, hf]
  simp

theorem Delete_reachable (g : Globals) (m : Backend) (bucket key : GoString)
    (hr : m.reachable g.globalUri) :
    Delete g m bucket key =
      (Outcome.ok (), m.setColl g.globalDb bucket
        (deleteOne (m.colls g.globalDb bucket) key)) := by
  obtain ⟨h1, h2, _⟩ := hr
  simp [Delete, h1, h2]

/-! ## Round trip, last write wins, and deletion -/

/-- C1, at two failing inputs, under the configuration of `link1`
(`globalKv = "kv"`). On an empty bucket, `Set(b, k, FF)` followed by
`Get(b, k)` returns the three bytes `EF BF BD`, not the byte that was set. On
a bucket whose collection holds key `k` under the namespace `other`,
`Set(b, k, "new")` followed by `Get(b, k)` returns `"old"`, the value of the
other namespace, while `Exists(b, k)` finds the record that Set wrote. -/
theorem Set_Get_roundtrip_fails :
    (Get Globals.configured
        (Set Globals.configured Backend.empty (lit "b") (lit "k") [0xFF]).2 (lit "b") (lit "k")
        = Outcome.ok [0xEF, 0xBF, 0xBD]
      ∧ Get Globals.configured
        (Set Globals.configured Backend.empty (lit "b") (lit "k") [0xFF]).2 (lit "b") (lit "k")
        ≠ Outcome.ok [0xFF])
    ∧ (Get Globals.configured
        (Set Globals.configured
          (Backend.ofDocs [{ Store := lit "other", Key := lit "k", Value := lit "old" }])
          (lit "b") (lit "k") (lit "new")).2 (lit "b") (lit "k")
        = Outcome.ok (lit "old")
      ∧ Get Globals.configured
        (Set Globals.configured
          (Backend.ofDocs [{ Store := lit "other", Key := lit "k", Value := lit "old" }])
          (lit "b") (lit "k") (lit "new")).2 (lit "b") (lit "k")
        ≠ Outcome.ok (lit "new")
      ∧ Exists Globals.configured
        (Set Globals.configured
          (Backend.ofDocs [{ Store := lit "other", Key := lit "k", Value := lit "old" }])
          (lit "b") (lit "k") (lit "new")).2 (lit "b") (lit "k")
        = Outcome.ok true
      ∧ (Set Globals.configured
          (Backend.ofDocs [{ Store := lit "other", Key := lit "k", Value := lit "old" }])
          (lit "b") (lit "k") (lit "new")).2.colls (lit "kvstore") (lit "b")
        = [{ Store := lit "other", Key := lit "k", Value := lit "old" },
           { Store := lit "kv", Key := lit "k", Value := lit "new" }]) := by
  decide

/-- Where neither of the two failures of Get shows, the round trip holds: when
the value is valid UTF-8 and the first record with the key, if there is one,
is in the active namespace, `Set(bucket, key, value)` succeeds and
`Get(bucket, key)` afterwards returns `Ok(value)`. -/
theorem Set_then_Get (g : Globals) (m : Backend) (bucket key value : GoString)
    (hr : m.reachable g.globalUri) (hv : utf8.Valid value = true)
    (hfirst : ∀ d, (m.colls g.globalDb bucket).find? (fun d => d.Key = key) = some d →
      d.Store = g.globalKv) :
    (Set g m bucket key value).1 = Outcome.ok ()
    ∧ Get g (Set g m bucket key value).2 bucket key = Outcome.ok value := by
  rw [Set_reachable g m bucket key value hr]
  refine ⟨rfl, ?_⟩
  exact Get_found g _ bucket key { Store := g.globalKv, Key := key, Value := value }
    (setColl_reachable m _ _ _ _ hr)
    (by rw [setColl_same]; exact find_upsert _ key g.globalKv value hfirst) hv

/-- C2 as stated fails, under the configuration of `link1`: from an empty
bucket, `Set(b,k,"v1")` then `Set(b,k,FF)` followed by `Get(b,k)` returns the
bytes `EF BF BD`; from a bucket that holds `k` under the namespace `other`,
the two Sets followed by Get return the value stored under `other`; and from a
bucket that holds two records for `(k, kv)`, two records for `(k, kv)` remain
after the two Sets. -/
theorem Set_twice_fails :
    Get Globals.configured
        (Set Globals.configured
          (Set Globals.configured Backend.empty (lit "b") (lit "k") (lit "v1")).2
          (lit "b") (lit "k") [0xFF]).2 (lit "b") (lit "k")
      = Outcome.ok [0xEF, 0xBF, 0xBD]
    ∧ Get Globals.configured
        (Set Globals.configured
          (Set Globals.configured
            (Backend.ofDocs [{ Store := lit "other", Key := lit "k", Value := lit "old" }])
            (lit "b") (lit "k") (lit "v1")).2
          (lit "b") (lit "k") (lit "v2")).2 (lit "b") (lit "k")
      = Outcome.ok (lit "old")
    ∧ ((Set Globals.configured
          (Set Globals.configured
            (Backend.ofDocs [{ Store := lit "kv", Key := lit "k", Value := lit "x" },
              { Store := lit "kv", Key := lit "k", Value := lit "y" }])
            (lit "b") (lit "k") (lit "v1")).2
          (lit "b") (lit "k") (lit "v2")).2.colls (lit "kvstore") (lit "b")).countP
        (fun d => d.Key = lit "k" ∧ d.Store = lit "kv") = 2 := by
  decide

/-- C2, amended: on a backend where connecting, the collection operations and
disconnecting succeed, for every bucket, key, values `v1` and `v2` and every
prior content of the bucket's collection: `Set(b,k,v1)` and `Set(b,k,v2)`
both succeed; afterwards the record that a lookup by key and active namespace
finds holds `v2`, and `Exists(b,k)` returns `Ok(true)`; the number of records
for the key under the active namespace is the number before the first Set,
or one if there was none, hence exactly one when there was at most one; the
second Set adds no record; and one more `Set(b,k,v2)` leaves every collection
as it is. What `Get(b,k)` returns is not stated. -/
theorem Set_twice (g : Globals) (m : Backend) (bucket key v1 v2 : GoString)
    (hr : m.reachable g.globalUri) :
    (Set g m bucket key v1).1 = Outcome.ok ()
    ∧ (Set g (Set g m bucket key v1).2 bucket key v2).1 = Outcome.ok ()
    ∧ ((Set g (Set g m bucket key v1).2 bucket key v2).2.colls g.globalDb bucket).find?
        (fun d => d.Key = key ∧ d.Store = g.globalKv)
        = some { Store := g.globalKv, Key := key, Value := v2 }
    ∧ Exists g (Set g (Set g m bucket key v1).2 bucket key v2).2 bucket key = Outcome.ok true
    ∧ ((Set g (Set g m bucket key v1).2 bucket key v2).2.colls g.globalDb bucket).countP
        (fun d => d.Key = key ∧ d.Store = g.globalKv)
        = max 1 ((m.colls g.globalDb bucket).countP
            (fun d => d.Key = key ∧ d.Store = g.globalKv))
    ∧ ((m.colls g.globalDb bucket).countP (fun d => d.Key = key ∧ d.Store = g.globalKv) ≤ 1 →
        ((Set g (Set g m bucket key v1).2 bucket key v2).2.colls g.globalDb bucket).countP
          (fun d => d.Key = key ∧ d.Store = g.globalKv) = 1)
    ∧ ((Set g (Set g m bucket key v1).2 bucket key v2).2.colls g.globalDb bucket).length
        = ((Set g m bucket key v1).2.colls g.globalDb bucket).length
    ∧ ∀ db name,
        (Set g (Set g (Set g m bucket key v1).2 bucket key v2).2 bucket key v2).2.colls db name
          = (Set g (Set g m bucket key v1).2 bucket key v2).2.colls db name := by
  have hr1 := setColl_reachable m g.globalUri g.globalDb bucket
    (updateOneUpsert (m.colls g.globalDb bucket) key g.globalKv v1) hr
  rw [Set_reachable g m bucket key v1 hr, Set_reachable g _ bucket key v2 hr1]
  simp only [setColl_same]
  have hr2 := setColl_reachable _ g.globalUri g.globalDb bucket
    (updateOneUpsert (updateOneUpsert (m.colls g.globalDb bucket) key g.globalKv v1)
      key g.globalKv v2) hr1
  have hfind := find_upsert_ns
    (updateOneUpsert (m.colls g.globalDb bucket) key g.globalKv v1) key g.globalKv v2
  have hcount : (updateOneUpsert (updateOneUpsert (m.colls g.globalDb bucket) key g.globalKv v1)
      key g.globalKv v2).countP (fun d => d.Key = key ∧ d.Store = g.globalKv)
      = max 1 ((m.colls g.globalDb bucket).countP
          (fun d => d.Key = key ∧ d.Store = g.globalKv)) := by
    rw [upsert_count, upsert_count]
    omega
  refine ⟨trivial, trivial, hfind, ?_, hcount, ?_,
    upsert_length_again _ key g.globalKv v1 v2, ?_⟩
  · exact Exists_found g _ bucket key _ hr2 (by rw [setColl_same]; exact hfind)
  · intro hone
    rw [hcount]
    omega
  · intro db name
    rw [Set_reachable g _ bucket key v2 hr2]
    simp only [setColl_same, upsert_idem]
    by_cases h : db = g.globalDb ∧ name = bucket
    · simp [Backend.setColl, h]
    · simp [Backend.setColl, h]

/-- C2, amended, under the configuration of `link1`, from a bucket that holds
key `k` under the namespace `other`, with the values `"v1"` and `FF`: the
record for `k` under `kv` holds `FF` and is the only one. -/
theorem Set_twice_witness :
    (Backend.ofDocs [{ Store := lit "other", Key := lit "k", Value := lit "old" }]).reachable
        Globals.configured.globalUri
    ∧ ((Set Globals.configured
          (Set Globals.configured
            (Backend.ofDocs [{ Store := lit "other", Key := lit "k", Value := lit "old" }])
            (lit "b") (lit "k") (lit "v1")).2
          (lit "b") (lit "k") [0xFF]).2.colls Globals.configured.globalDb (lit "b")).find?
        (fun d => d.Key = lit "k" ∧ d.Store = Globals.configured.globalKv)
      = some { Store := Globals.configured.globalKv, Key := lit "k", Value := [0xFF] }
    ∧ ((Set Globals.configured
          (Set Globals.configured
            (Backend.ofDocs [{ Store := lit "other", Key := lit "k", Value := lit "old" }])
            (lit "b") (lit "k") (lit "v1")).2
          (lit "b") (lit "k") [0xFF]).2.colls Globals.configured.globalDb (lit "b")).countP
        (fun d => d.Key = lit "k" ∧ d.Store = Globals.configured.globalKv) = 1 :=
  ⟨by decide,
   (Set_twice Globals.configured
      (Backend.ofDocs [{ Store := lit "other", Key := lit "k", Value := lit "old" }])
      (lit "b") (lit "k") (lit "v1") [0xFF] (by decide)).2.2.1,
   (Set_twice Globals.configured
      (Backend.ofDocs [{ Store := lit "other", Key := lit "k", Value := lit "old" }])
      (lit "b") (lit "k") (lit "v1") [0xFF] (by decide)).2.2.2.2.2.1 (by decide)⟩

/-- C4 as stated fails: on a bucket that holds key `k` under the namespaces
`kv` and `custom`, the first `Delete(b,k)` removes one record and the second
removes the other. -/
theorem Delete_twice_fails :
    ((Delete Globals.configured
        (Backend.ofDocs [{ Store := lit "kv", Key := lit "k", Value := lit "v1" },
          { Store := lit "custom", Key := lit "k", Value := lit "v2" }])
        (lit "b") (lit "k")).2.colls (lit "kvstore") (lit "b"))
      = [{ Store := lit "custom", Key := lit "k", Value := lit "v2" }]
    ∧ (Delete Globals.configured
        (Delete Globals.configured
          (Backend.ofDocs [{ Store := lit "kv", Key := lit "k", Value := lit "v1" },
            { Store := lit "custom", Key := lit "k", Value := lit "v2" }])
          (lit "b") (lit "k")).2 (lit "b") (lit "k")).1 = Outcome.ok ()
    ∧ ((Delete Globals.configured
        (Delete Globals.configured
          (Backend.ofDocs [{ Store := lit "kv", Key := lit "k", Value := lit "v1" },
            { Store := lit "custom", Key := lit "k", Value := lit "v2" }])
          (lit "b") (lit "k")).2 (lit "b") (lit "k")).2.colls (lit "kvstore") (lit "b")) = [] := by
  decide

/-- C4, amended: on a reachable backend, `Delete(bucket, key)` on a collection
with no record for that key returns success and leaves every collection
unchanged; and for every collection state, two calls in a row both succeed,
each removes at most one record, and the second removes none when the
collection held at most one record with that key before the first call. -/
theorem Delete_twice (g : Globals) (m : Backend) (bucket key : GoString)
    (hr : m.reachable g.globalUri) :
    ((∀ d ∈ m.colls g.globalDb bucket, d.Key ≠ key) →
      (Delete g m bucket key).1 = Outcome.ok ()
      ∧ ∀ db name, (Delete g m bucket key).2.colls db name = m.colls db name)
    ∧ (Delete g m bucket key).1 = Outcome.ok ()
    ∧ (Delete g (Delete g m bucket key).2 bucket key).1 = Outcome.ok ()
    ∧ ((Delete g m bucket key).2.colls g.globalDb bucket).Sublist (m.colls g.globalDb bucket)
    ∧ (m.colls g.globalDb bucket).length
        ≤ ((Delete g m bucket key).2.colls g.globalDb bucket).length + 1
    ∧ ((Delete g (Delete g m bucket key).2 bucket key).2.colls g.globalDb bucket).Sublist
        ((Delete g m bucket key).2.colls g.globalDb bucket)
    ∧ ((Delete g m bucket key).2.colls g.globalDb bucket).length
        ≤ ((Delete g (Delete g m bucket key).2 bucket key).2.colls g.globalDb bucket).length + 1
    ∧ ((m.colls g.globalDb bucket).countP (fun d => d.Key = key) ≤ 1 →
      ∀ db name, (Delete g (Delete g m bucket key).2 bucket key).2.colls db name
        = (Delete g m bucket key).2.colls db name) := by
  have hr1 := setColl_reachable m g.globalUri g.globalDb bucket
    (deleteOne (m.colls g.globalDb bucket) key) hr
  rw [Delete_reachable g m bucket key hr, Delete_reachable g _ bucket key hr1]
  simp only [setColl_same]
  have hlen : ∀ docs : List Pair, docs.length ≤ (deleteOne docs key).length + 1 := by
    intro docs
    unfold deleteOne
    rw [List.length_eraseP]
    split <;> omega
  refine ⟨?_, trivial, trivial, List.eraseP_sublist _, hlen _, List.eraseP_sublist _, hlen _, ?_⟩
  · intro h
    refine ⟨trivial, ?_⟩
    intro db name
    rw [deleteOne_absent _ key h]
    exact setColl_self m _ _ db name
  · intro h db name
    rw [deleteOne_absent _ key (eraseP_none_left _ key h)]
    exact setColl_again m _ _ _ db name

/-- C4, amended, at a bucket that holds key `k` once and another key. -/
theorem Delete_twice_witness :
    ((Delete Globals.configured
        (Delete Globals.configured
          (Backend.ofDocs [{ Store := lit "kv", Key := lit "k", Value := lit "v1" },
            { Store := lit "kv", Key := lit "j", Value := lit "v2" }])
          (lit "b") (lit "k")).2 (lit "b") (lit "k")).2.colls (lit "kvstore") (lit "b"))
      = ((Delete Globals.configured
          (Backend.ofDocs [{ Store := lit "kv", Key := lit "k", Value := lit "v1" },
            { Store := lit "kv", Key := lit "j", Value := lit "v2" }])
          (lit "b") (lit "k")).2.colls (lit "kvstore") (lit "b")) :=
  (Delete_twice Globals.configured
    (Backend.ofDocs [{ Store := lit "kv", Key := lit "k", Value := lit "v1" },
      { Store := lit "kv", Key := lit "j", Value := lit "v2" }])
    (lit "b") (lit "k") (by decide)).2.2.2.2.2.2.2 (by decide) (lit "kvstore") (lit "b")

end KeyvalueMongodb
